import Mathlib

/-!
Verification of the Vale MCP server (a Model Context Protocol server that
shells out to the Vale prose linter) against its natural-language
specification.

The embedding models JavaScript strings as `List Char` (called `Str` below),
so that the character-level behaviour of the regex-based code-fence stripping
in `src/vale-runner.ts` can be stated and proved.  Effectful boundaries
(`child_process.exec`, `fs.access`, environment variables) are modelled as
explicit data: an `ExecOutcome` value stands for one external process
execution (its captured stdout / stderr / message), and a `FsEnv` record
carries the readability probe and working directory used by `config.ts`.

`JSON.parse` is library code of the JavaScript runtime, not part of this
repository; it is modelled below (`jsonParse`) by a concrete parser for the
grammar of Vale's `--output=JSON` documents (a top-level object mapping file
paths to arrays of issue objects), which is the shape the source casts the
parsed value to (`as ValeRawOutput` in `parseValeOutput`).
-/

/-- JavaScript strings, modelled character by character. -/
abbrev Str := List Char

/-- The whitespace class used by the source's regexes (`\s`) and by
`String.prototype.trim`, restricted to its ASCII members (the inputs in
scope are ASCII). -/
def isJsWS (c : Char) : Bool :=
  c = ' ' || c = '\t' || c = '\n' || c = '\r' || c = '\x0b' || c = '\x0c'

/-! ## Data model (`src/types.ts`) -/

/-- `ValeIssue.Action` from `src/types.ts` (`{Name, Params}`). -/
structure ValeAction where
  Name : Str
  Params : List Str
deriving DecidableEq

/-- A raw Vale issue, `ValeIssue` from `src/types.ts`. -/
structure ValeIssue where
  Line : Nat
  Span : Nat × Nat
  Check : Str
  Message : Str
  Severity : Str
  Link : Option Str
  Match : Option Str
  Action : Option ValeAction
deriving DecidableEq

/-- `ValeRawOutput` from `src/types.ts`: a mapping from file path to issue
list.  JavaScript objects enumerate string keys in insertion order, so the
mapping is modelled as an association list in that order. -/
abbrev ValeRawOutput := List (Str × List ValeIssue)

/-- `NormalizedValeIssue` from `src/types.ts`.  The source field `match` is a
Lean keyword, hence the guillemets. -/
structure NormalizedValeIssue where
  line : Nat
  span : Nat × Nat
  check : Str
  message : Str
  severity : Str
  link : Option Str
  «match» : Option Str
deriving DecidableEq

/-- `ValeSummary` from `src/types.ts`. -/
structure ValeSummary where
  total : Nat
  errors : Nat
  warnings : Nat
  suggestions : Nat
deriving DecidableEq

/-- `CheckFileResult` from `src/types.ts`. -/
structure CheckFileResult where
  formatted : Str
  file : Str
  issues : List NormalizedValeIssue
  summary : ValeSummary
deriving DecidableEq

/-- The outcome of one `execAsync` call: either the promise resolved
(exit code zero) with captured stdout, or it rejected (non-zero exit /
spawn failure) with the captured stdout, stderr and error message that the
source reads off the rejection value (`error.stdout`, `error.stderr`,
`error.message`).  An absent field is modelled by the empty string, which is
exactly what JavaScript truthiness tests on those fields observe. -/
inductive ExecOutcome where
  | success (stdout : Str)
  | failure (stdout : Str) (stderr : Str) (message : Str)
deriving DecidableEq

/-! ## Code-fence stripping (`stripCodeFence` in `src/vale-runner.ts`)

The source is
`output.replace(/^```json\s*\n?/, "").replace(/\n?```\s*$/, "").trim()`.
The first regex is anchored at the start: after the literal fence marker the
greedy `\s*` absorbs every following whitespace character (so the trailing
`\n?` can never match anything further).  The second regex must match a
suffix of the string (`$` without the `m` flag), so it fires exactly when the
last non-whitespace characters are the three backticks, removing them, the
whitespace after them, and one preceding newline if present. -/

/-- First `replace`: drop a leading fence marker and the whitespace run
after it. -/
def strip1 (s : Str) : Str :=
  match s with
  | '\x60' :: '\x60' :: '\x60' :: 'j' :: 's' :: 'o' :: 'n' :: rest =>
      rest.dropWhile isJsWS
  | _ => s

/-- Second `replace`: drop a trailing fence (three backticks followed only by
whitespace), together with one newline immediately before it. -/
def strip2 (s : Str) : Str :=
  match s.reverse.dropWhile isJsWS with
  | '\x60' :: '\x60' :: '\x60' :: r =>
      match r with
      | '\n' :: r2 => r2.reverse
      | _ => r.reverse
  | _ => s

/-- `String.prototype.trim`. -/
def jsTrim (s : Str) : Str :=
  ((s.dropWhile isJsWS).reverse.dropWhile isJsWS).reverse

/-- `stripCodeFence` from `src/vale-runner.ts`. -/
def stripCodeFence (s : Str) : Str :=
  jsTrim (strip2 (strip1 s))

/-- Wrapping a text in a markdown code fence: a leading ```json line and a
trailing ``` line, as described by the specification. -/
def wrapFence (raw : Str) : Str :=
  '\x60' :: '\x60' :: '\x60' :: 'j' :: 's' :: 'o' :: 'n' :: '\n' ::
    (raw ++ ['\n', '\x60', '\x60', '\x60'])

/-- Spec-side predicate: the text itself begins with a ```json fence
marker. -/
def startsWithFenceOpen (s : Str) : Bool :=
  match s with
  | '\x60' :: '\x60' :: '\x60' :: 'j' :: 's' :: 'o' :: 'n' :: _ => true
  | _ => false

/-- Spec-side predicate: the text's last non-whitespace characters are a
``` fence marker. -/
def endsWithFenceClose (s : Str) : Bool :=
  match s.reverse.dropWhile isJsWS with
  | '\x60' :: '\x60' :: '\x60' :: _ => true
  | _ => false

/-! ## A model of `JSON.parse` on Vale's output grammar

`JSON.parse` is not code of this repository.  The functions below parse the
JSON documents Vale emits with `--output=JSON`: a top-level object whose
values are arrays of issue objects with the fields named in
`src/types.ts`.  Escape sequences `\uXXXX` and the `Action` field are not
needed by any input considered here and are outside the model. -/

/-- JSON string escapes (`\n`, `\t`, `\r`, `\b`, `\f`; any other escaped
character stands for itself). -/
def unescapeChar (c : Char) : Char :=
  if c = 'n' then '\n'
  else if c = 't' then '\t'
  else if c = 'r' then '\r'
  else if c = 'b' then '\x08'
  else if c = 'f' then '\x0c'
  else c

/-- Parse the body of a JSON string literal after the opening quote. -/
def parseStringBody : Str → Option (Str × Str)
  | [] => none
  | '"' :: r => some ([], r)
  | '\\' :: c :: r =>
      (parseStringBody r).map (fun p => (unescapeChar c :: p.1, p.2))
  | c :: r =>
      (parseStringBody r).map (fun p => (c :: p.1, p.2))

/-- Parse a JSON string literal. -/
def parseStringLit : Str → Option (Str × Str)
  | '"' :: r => parseStringBody r
  | _ => none

/-- Parse a (non-negative) JSON number as a natural. -/
def parseNatLit (s : Str) : Option (Nat × Str) :=
  let ds := s.takeWhile Char.isDigit
  if ds = [] then none
  else some (ds.foldl (fun n c => n * 10 + (c.toNat - 48)) 0, s.dropWhile Char.isDigit)

/-- Expect one specific character. -/
def expectChar (c : Char) : Str → Option Str
  | x :: r => if x = c then some r else none
  | [] => none

/-- Parse a two-element number array, the shape of `Span`. -/
def parseSpanLit (s : Str) : Option ((Nat × Nat) × Str) := do
  let r ← expectChar '[' s
  let (a, r) ← parseNatLit (r.dropWhile isJsWS)
  let r ← expectChar ',' (r.dropWhile isJsWS)
  let (b, r) ← parseNatLit (r.dropWhile isJsWS)
  let r ← expectChar ']' (r.dropWhile isJsWS)
  some ((a, b), r)

/-- Accumulator for the fields of one issue object. -/
structure IssueAcc where
  line : Option Nat := none
  span : Option (Nat × Nat) := none
  check : Option Str := none
  message : Option Str := none
  severity : Option Str := none
  link : Option Str := none
  matchv : Option Str := none

/-- Require the fields Vale always emits; `Link` and `Match` stay optional. -/
def finalizeIssue (a : IssueAcc) : Option ValeIssue := do
  let l ← a.line
  let sp ← a.span
  let ch ← a.check
  let m ← a.message
  let sv ← a.severity
  some { Line := l, Span := sp, Check := ch, Message := m, Severity := sv,
         Link := a.link, Match := a.matchv, Action := none }

/-- Parse the `"key": value` pairs of one issue object, positioned after the
opening brace (whitespace already skipped). -/
def parseIssueFields : Nat → IssueAcc → Str → Option (ValeIssue × Str)
  | 0, _, _ => none
  | fuel + 1, acc, s => do
    let (key, r) ← parseStringLit s
    let r ← expectChar ':' (r.dropWhile isJsWS)
    let r := r.dropWhile isJsWS
    let (acc, r) ←
      if key = "Line".data then
        (parseNatLit r).map (fun p => ({ acc with line := some p.1 }, p.2))
      else if key = "Span".data then
        (parseSpanLit r).map (fun p => ({ acc with span := some p.1 }, p.2))
      else if key = "Check".data then
        (parseStringLit r).map (fun p => ({ acc with check := some p.1 }, p.2))
      else if key = "Message".data then
        (parseStringLit r).map (fun p => ({ acc with message := some p.1 }, p.2))
      else if key = "Severity".data then
        (parseStringLit r).map (fun p => ({ acc with severity := some p.1 }, p.2))
      else if key = "Link".data then
        (parseStringLit r).map (fun p => ({ acc with link := some p.1 }, p.2))
      else if key = "Match".data then
        (parseStringLit r).map (fun p => ({ acc with matchv := some p.1 }, p.2))
      else none
    match r.dropWhile isJsWS with
    | ',' :: r2 => parseIssueFields fuel acc (r2.dropWhile isJsWS)
    | '\x7d' :: r2 => do
        let i ← finalizeIssue acc
        some (i, r2)
    | _ => none

/-- Parse one issue object. -/
def parseIssue (fuel : Nat) (s : Str) : Option (ValeIssue × Str) := do
  let r ← expectChar '\x7b' s
  parseIssueFields fuel {} (r.dropWhile isJsWS)

/-- Parse the remaining elements of a non-empty issue array. -/
def parseIssueArrayRest : Nat → List ValeIssue → Str → Option (List ValeIssue × Str)
  | 0, _, _ => none
  | fuel + 1, acc, s => do
    let (i, r) ← parseIssue fuel s
    match r.dropWhile isJsWS with
    | ',' :: r2 => parseIssueArrayRest fuel (acc ++ [i]) (r2.dropWhile isJsWS)
    | ']' :: r2 => some (acc ++ [i], r2)
    | _ => none

/-- Parse a JSON array of issue objects. -/
def parseIssueArray (fuel : Nat) (s : Str) : Option (List ValeIssue × Str) := do
  let r ← expectChar '[' s
  match r.dropWhile isJsWS with
  | ']' :: r2 => some ([], r2)
  | r2 => parseIssueArrayRest fuel [] r2

/-- Parse the `"file": [...]` pairs of the top-level object, positioned after
the opening brace (whitespace already skipped, object known non-empty). -/
def parseFilePairs : Nat → ValeRawOutput → Str → Option (ValeRawOutput × Str)
  | 0, _, _ => none
  | fuel + 1, acc, s => do
    let (key, r) ← parseStringLit s
    let r ← expectChar ':' (r.dropWhile isJsWS)
    let (issues, r) ← parseIssueArray fuel (r.dropWhile isJsWS)
    match r.dropWhile isJsWS with
    | ',' :: r2 => parseFilePairs fuel (acc ++ [(key, issues)]) (r2.dropWhile isJsWS)
    | '\x7d' :: r2 => some (acc ++ [(key, issues)], r2)
    | _ => none

/-- The model of `JSON.parse` described above: parse a complete Vale output
document, requiring only whitespace after the top-level object. -/
def jsonParse (s : Str) : Option ValeRawOutput := do
  let r ← expectChar '\x7b' (s.dropWhile isJsWS)
  let (out, rest) ←
    match r.dropWhile isJsWS with
    | '\x7d' :: r2 => some (([] : ValeRawOutput), r2)
    | r2 => parseFilePairs (s.length + 1) [] r2
  if rest.dropWhile isJsWS = [] then some out else none

/-! ## Output normalization (`src/vale-runner.ts`) -/

/-- The error message thrown by `parseValeOutput` on a structural parse
failure (the `MalformedToolOutput` condition of the specification; the
parser's own diagnostic text, appended after the colon in the source, is
abstracted away here because the model's parser carries no messages). -/
def malformedOutputMsg : Str :=
  "Failed to parse Vale JSON output".data

/-- The branch structure of `parseValeOutput` after fence stripping:
empty text yields the empty mapping, otherwise the text is structurally
parsed and a parse failure is thrown as an error. -/
def parseCleanedOutput (cleaned : Str) : Except Str ValeRawOutput :=
  if cleaned = [] then .ok []
  else
    match jsonParse cleaned with
    | some v => .ok v
    | none => .error malformedOutputMsg

/-- `parseValeOutput` from `src/vale-runner.ts`. -/
def parseValeOutput (s : Str) : Except Str ValeRawOutput :=
  parseCleanedOutput (stripCodeFence s)

/-- The per-issue flattening done by `normalizeIssues` (field renaming; the
`Action` metadata is intentionally dropped). -/
def normalizeIssue (i : ValeIssue) : NormalizedValeIssue :=
  { line := i.Line, span := i.Span, check := i.Check, message := i.Message,
    severity := i.Severity, link := i.Link, «match» := i.Match }

/-- `normalizeIssues` from `src/vale-runner.ts`: the nested
`for (const filePath in issues) { for (const issue of fileIssues) push }`
loops, pushing one normalized issue at a time. -/
def normalizeIssues (raw : ValeRawOutput) : List NormalizedValeIssue :=
  raw.foldl (fun acc p => p.2.foldl (fun acc2 i => acc2 ++ [normalizeIssue i]) acc) []

/-- The switch body of `generateSummary`: bump the bucket matching the
issue's severity, leave the record unchanged on an unrecognized tag. -/
def sevStep (acc : ValeSummary) (i : NormalizedValeIssue) : ValeSummary :=
  if i.severity == "error".data then { acc with errors := acc.errors + 1 }
  else if i.severity == "warning".data then { acc with warnings := acc.warnings + 1 }
  else if i.severity == "suggestion".data then { acc with suggestions := acc.suggestions + 1 }
  else acc

/-- `generateSummary` from `src/vale-runner.ts`: `total` is fixed to the
list length up front, then one pass counts by severity tag. -/
def generateSummary (issues : List NormalizedValeIssue) : ValeSummary :=
  issues.foldl sevStep
    { total := issues.length, errors := 0, warnings := 0, suggestions := 0 }

/-- The three severity tags `generateSummary`'s switch recognizes (the
`ValeSeverity` union of `src/types.ts`). -/
def recognizedSeverities : List Str :=
  ["error".data, "warning".data, "suggestion".data]

/-! ## Report formatting (`formatValeResults` in `src/vale-runner.ts`) -/

/-- The fixed message for an empty issue list. -/
def noIssuesMessage : Str :=
  "✅ **No style issues found!**\n\nThe text looks good according to Vale style rules.".data

/-- `severityEmoji` lookup; a key outside the table would be the JavaScript
`undefined`, which string interpolation renders as the text `undefined`
(unreachable: the formatter only looks up its three group keys). -/
def severityEmoji (sev : Str) : Str :=
  if sev = "error".data then "🔴".data
  else if sev = "warning".data then "🟡".data
  else if sev = "suggestion".data then "💡".data
  else "undefined".data

/-- `severity.toUpperCase()`. -/
def jsToUpper (s : Str) : Str := s.map Char.toUpper

/-- `` `${n} ${label}${n !== 1 ? 's' : ''}` `` — one entry of the summary
parts list. -/
def countPhrase (n : Nat) (label : Str) : Str :=
  (Nat.repr n).data ++ " ".data ++ label ++ (if n ≠ 1 then "s".data else [])

/-- The `parts` array of `formatValeResults`: one pluralized count per
severity, pushed only when the count is positive. -/
def summaryParts (s : ValeSummary) : List Str :=
  (if s.errors > 0 then [countPhrase s.errors "error".data] else []) ++
    (if s.warnings > 0 then [countPhrase s.warnings "warning".data] else []) ++
      (if s.suggestions > 0 then [countPhrase s.suggestions "suggestion".data] else [])

/-- The summary line: total with pluralization, then the parenthesized
comma-joined parts when any are present, then a blank line. -/
def summaryLine (s : ValeSummary) : Str :=
  "**Summary:** ".data ++ (Nat.repr s.total).data ++ " issue".data ++
    (if s.total ≠ 1 then "s".data else []) ++ " found".data ++
      (if summaryParts s ≠ [] then
        " (".data ++ List.intercalate ", ".data (summaryParts s) ++ ")".data
      else []) ++ "\n\n".data

/-- The optional `**Context:**` line (`if (context)` is a JavaScript
truthiness test, so an empty context string is skipped too). -/
def contextPart : Option Str → Str
  | some c => if c = [] then [] else "**Context:** ".data ++ c ++ "\n\n".data
  | none => []

/-- One rendered issue block.  `if (issue.match)` and `if (issue.link)` are
truthiness tests, so empty strings are skipped like absent fields. -/
def formatIssueBlock (sev : Str) (i : NormalizedValeIssue) : Str :=
  severityEmoji sev ++ " **Line ".data ++ (Nat.repr i.line).data ++ "** (".data ++
    jsToUpper sev ++ "): ".data ++ i.message ++ "\n".data ++
    (match i.«match» with
     | some m => if m = [] then [] else "   ↳ Found: \"".data ++ m ++ "\"\n".data
     | none => []) ++
    "   ↳ Rule: `".data ++ i.check ++ "`\n".data ++
    (match i.link with
     | some l => if l = [] then [] else "   ↳ [More info](".data ++ l ++ ")\n".data
     | none => []) ++
    "\n".data

/-- The `grouped` object of `formatValeResults`: the three severity filters
in insertion order. -/
def severityGroups (issues : List NormalizedValeIssue) :
    List (Str × List NormalizedValeIssue) :=
  [("error".data, issues.filter (fun i => i.severity == "error".data)),
   ("warning".data, issues.filter (fun i => i.severity == "warning".data)),
   ("suggestion".data, issues.filter (fun i => i.severity == "suggestion".data))]

/-- The `Object.entries(grouped)` loop: empty groups are skipped
(`continue`), non-empty groups contribute one block per issue. -/
def issuesSection (issues : List NormalizedValeIssue) : Str :=
  ((severityGroups issues).map
    (fun g => if g.2 = [] then [] else (g.2.map (formatIssueBlock g.1)).flatten)).flatten

/-- `formatValeResults` from `src/vale-runner.ts`. -/
def formatValeResults (issues : List NormalizedValeIssue) (summary : ValeSummary)
    (context : Option Str) : Str :=
  if issues = [] then noIssuesMessage
  else
    "## Vale Linting Results\n\n".data ++ contextPart context ++
      summaryLine summary ++ "### Issues\n\n".data ++ issuesSection issues

/-- Spec-side grouping: all error issues, then all warning issues, then all
suggestion issues, each group in original relative order. -/
def orderedBySeverity (issues : List NormalizedValeIssue) : List NormalizedValeIssue :=
  issues.filter (fun i => i.severity == "error".data) ++
    issues.filter (fun i => i.severity == "warning".data) ++
      issues.filter (fun i => i.severity == "suggestion".data)

/-! ## External tool invocation (`checkFile` in `src/vale-runner.ts`) -/

/-- The fallback chain `error.stderr || error.message || "Unknown error"`
prefixed by the thrown `Vale execution failed: ` text. -/
def valeExecFailedMsg (stderr msg : Str) : Str :=
  "Vale execution failed: ".data ++
    (if stderr ≠ [] then stderr else if msg ≠ [] then msg else "Unknown error".data)

/-- The try/catch around `execAsync` in `checkFile`: on resolution the
stdout is used; on rejection the captured `error.stdout` is used when truthy
(non-empty), otherwise the error is rethrown with the captured
stderr/message — the `ToolExecutionFailed` condition. -/
def checkFileExecStdout : ExecOutcome → Except Str Str
  | .success out => .ok out
  | .failure stdout stderr msg =>
      if stdout ≠ [] then .ok stdout else .error (valeExecFailedMsg stderr msg)

/-- The tail of `checkFile` from `src/vale-runner.ts`, starting at the Vale
execution (the file-existence probe and command construction above it are
not modelled here; `absolutePath` is the already-resolved absolute path):
parse the raw stdout, normalize, summarize, format, and assemble the
`CheckFileResult`. -/
def checkFileFromExec (absolutePath : Str) (o : ExecOutcome) :
    Except Str CheckFileResult :=
  match checkFileExecStdout o with
  | .error e => .error e
  | .ok stdout =>
      match parseValeOutput stdout with
      | .error e => .error e
      | .ok rawOutput =>
          let issues := normalizeIssues rawOutput
          let summary := generateSummary issues
          .ok { formatted := formatValeResults issues summary (some absolutePath),
                file := absolutePath, issues := issues, summary := summary }

/-! ## Installation probe and its cache (`src/vale-runner.ts`) -/

/-- The shape of `valeInstallCache`. -/
structure ValeInstallCache where
  checked : Bool
  installed : Bool
  version : Option Str
  error : Option Str
deriving DecidableEq

/-- The record `checkValeInstalled` returns. -/
structure InstallResult where
  installed : Bool
  version : Option Str
  error : Option Str
deriving DecidableEq

/-- The cache value written by an uncached `checkValeInstalled` run for a
given outcome of `vale --version`: success stores the trimmed stdout as the
version; failure stores the error message. -/
def probeCacheOf : ExecOutcome → ValeInstallCache
  | .success out =>
      { checked := true, installed := true, version := some (jsTrim out), error := none }
  | .failure _ _ msg =>
      { checked := true, installed := false, version := none, error := some msg }

/-- Reading the result fields off a cache value. -/
def cachedResult (c : ValeInstallCache) : InstallResult :=
  { installed := c.installed, version := c.version, error := c.error }

/-- The result computed by an uncached probe. -/
def valeProbe (o : ExecOutcome) : InstallResult :=
  cachedResult (probeCacheOf o)

/-- One call to `checkValeInstalled`, threading the cache explicitly and
recording whether the external version query was executed. -/
structure ProbeStep where
  result : InstallResult
  cache : ValeInstallCache
  invoked : Bool
deriving DecidableEq

/-- `checkValeInstalled` from `src/vale-runner.ts`: return the cached value
when already checked, otherwise execute `vale --version` (the supplied
`ExecOutcome`), overwrite the cache wholesale and return its fields. -/
def checkValeInstalled (c : ValeInstallCache) (o : ExecOutcome) : ProbeStep :=
  if c.checked then { result := cachedResult c, cache := c, invoked := false }
  else { result := cachedResult (probeCacheOf o), cache := probeCacheOf o, invoked := true }

/-- `clearValeInstallCache` from `src/vale-runner.ts`: reset to the initial
unchecked state. -/
def clearValeInstallCache : ValeInstallCache :=
  { checked := false, installed := false, version := none, error := none }

/-- Run a sequence of probes, collecting each returned result and whether it
invoked the external query. -/
def runProbes (c : ValeInstallCache) (os : List ExecOutcome) :
    List (InstallResult × Bool) × ValeInstallCache :=
  match os with
  | [] => ([], c)
  | o :: rest =>
      let s := checkValeInstalled c o
      let t := runProbes s.cache rest
      ((s.result, s.invoked) :: t.1, t.2)

/-! ## Config resolution (`src/config.ts` and `initializeValeConfig` /
`vale_sync` handler in `src/index.ts`) -/

/-- The filesystem/environment a config resolution runs against: the
process working directory and the non-throwing readability probe
(`fs.access(_, R_OK)`). -/
structure FsEnv where
  cwd : Str
  readable : Str → Bool

/-- `path.isAbsolute`, POSIX form. -/
def isAbsolutePath (p : Str) : Bool :=
  match p with
  | '/' :: _ => true
  | _ => false

/-- `resolveConfigPath` from `src/config.ts` (`path.resolve(cwd, p)`
modelled as plain joining, without `..` normalization). -/
def resolveConfigPath (env : FsEnv) (p : Str) : Str :=
  if isAbsolutePath p then p else env.cwd ++ '/' :: p

/-- `verifyConfigFile` from `src/config.ts`. -/
def verifyConfigFile (env : FsEnv) (p : Str) : Bool :=
  env.readable p

/-- `path.join(cwd, ".vale.ini")`. -/
def valeIniPath (env : FsEnv) : Str :=
  env.cwd ++ '/' :: ".vale.ini".data

/-- `findValeIniInWorkingDir` from `src/config.ts`. -/
def findValeIniInWorkingDir (env : FsEnv) : Option Str :=
  if env.readable (valeIniPath env) then some (valeIniPath env) else none

/-- `loadConfig` from `src/config.ts`: the `VALE_CONFIG_PATH` variable is
recorded only when set and truthy (non-empty). -/
def loadConfig (envVar : Option Str) : Option Str :=
  match envVar with
  | some s => if s = [] then none else some s
  | none => none

/-- The config-resolution tail of `initializeValeConfig` in `src/index.ts`
(reached once the tool is known installed): prefer a readable resolved
`VALE_CONFIG_PATH`, else (after a warning) the readable `.vale.ini` of the
working directory, else none. -/
def initializeValeConfig (env : FsEnv) (envVar : Option Str) : Option Str :=
  match loadConfig envVar with
  | some cp =>
      let r := resolveConfigPath env cp
      if verifyConfigFile env r then some r else findValeIniInWorkingDir env
  | none => findValeIniInWorkingDir env

/-- `config_path || valeConfigPath` in the `vale_sync` handler: the per-call
argument wins when truthy (non-empty). -/
def effectiveConfigPath (callPath : Option Str) (server : Option Str) : Option Str :=
  match callPath with
  | some p => if p = [] then server else some p
  | none => server

/-! ## The `check_file` dispatcher case (`src/index.ts`) -/

/-- The response shapes the `check_file` case can produce. -/
inductive CheckFileResponse where
  | invalidRequest (msg : Str)
  | notInstalled
  | ok (r : CheckFileResult)
  | failed (msg : Str)
deriving DecidableEq

/-- `JSON.stringify({error: "Missing required parameter: path"})`'s error
text. -/
def missingPathMsg : Str :=
  "Missing required parameter: path".data

/-- The `File not found or not readable` error thrown by `checkFile`. -/
def fileNotFoundMsg (p : Str) : Str :=
  "File not found or not readable: ".data ++ p

/-- The `check_file` case of the `CallToolRequestSchema` handler, with its
effectful environment made explicit: `pathArg` is the request's `path`
argument (`none` for absent), `cache`/`probeOutcome` feed
`checkValeInstalled`, `fileReadable` is the `fs.access` probe on the target,
and `runOutcome`/`absolutePath` feed the Vale execution.  The second
component counts how many times the external tool was invoked while serving
the request. -/
def dispatchCheckFile (pathArg : Option Str) (cache : ValeInstallCache)
    (probeOutcome : ExecOutcome) (fileReadable : Bool) (runOutcome : ExecOutcome)
    (absolutePath : Str) : CheckFileResponse × Nat :=
  match pathArg with
  | none => (.invalidRequest missingPathMsg, 0)
  | some p =>
    if p = [] then (.invalidRequest missingPathMsg, 0)
    else
      let step := checkValeInstalled cache probeOutcome
      let n := if step.invoked then 1 else 0
      if step.result.installed = false then (.notInstalled, n)
      else if fileReadable = false then (.failed (fileNotFoundMsg p), n)
      else
        match checkFileFromExec absolutePath runOutcome with
        | .ok r => (.ok r, n + 1)
        | .error e => (.failed e, n + 1)

/-! ## The `vale_status` dispatcher case (`src/index.ts`) -/

/-- One installation method of the static guidance table. -/
structure InstallMethod where
  name : Str
  command : Str
  url : Option Str
deriving DecidableEq

/-- The platform-keyed installation guidance record. -/
structure InstallInstructions where
  platform : Str
  documentation : Str
  methods : List InstallMethod
deriving DecidableEq

/-- `getInstallationInstructions` from `src/index.ts`: the static lookup
table keyed by `process.platform`. -/
def getInstallationInstructions (platform : Str) : InstallInstructions :=
  { platform := platform,
    documentation := "https://vale.sh/docs/vale-cli/installation/".data,
    methods :=
      if platform = "darwin".data then
        [{ name := "Homebrew (recommended)".data, command := "brew install vale".data,
           url := none },
         { name := "Download binary".data, command := "Download from GitHub releases".data,
           url := some "https://github.com/errata-ai/vale/releases".data }]
      else if platform = "linux".data then
        [{ name := "Snap".data, command := "sudo snap install vale".data, url := none },
         { name := "Download binary".data,
           command := "Download from GitHub releases and add to PATH".data,
           url := some "https://github.com/errata-ai/vale/releases".data }]
      else if platform = "win32".data then
        [{ name := "Chocolatey".data, command := "choco install vale".data, url := none },
         { name := "Scoop".data, command := "scoop install vale".data, url := none },
         { name := "Download binary".data, command := "Download from GitHub releases".data,
           url := some "https://github.com/errata-ai/vale/releases".data }]
      else
        [{ name := "Download binary".data, command := "Download from GitHub releases".data,
           url := some "https://github.com/errata-ai/vale/releases".data }] }

/-- The `vale_status` response object.  The source serializes with
`JSON.stringify`, under which an `undefined` field is omitted and the
explicit `null` written for `installation_instructions` carries no guidance;
both are modelled as `none`. -/
structure StatusResponse where
  installed : Bool
  version : Option Str
  platform : Str
  installation_instructions : Option InstallInstructions
  message : Str
deriving DecidableEq

/-- The `vale_status` case of the request handler, shaping a probe result
into the response object. -/
def valeStatusResponse (r : InstallResult) (platform : Str) : StatusResponse :=
  { installed := r.installed,
    version := r.version,
    platform := platform,
    installation_instructions :=
      if r.installed then none else some (getInstallationInstructions platform),
    message :=
      if r.installed then
        "Vale is installed and ready to use (".data ++
          (r.version.getD "undefined".data) ++ ")".data
      else
        "Vale is not installed. Please install it to use Vale linting tools.".data }

deriving instance DecidableEq for Except


/-! ## List helper lemmas -/

theorem dropWhile_append_nil {α} {p : α → Bool} {l₁ : List α}
    (h : l₁.dropWhile p = []) (l₂ : List α) :
    (l₁ ++ l₂).dropWhile p = l₂.dropWhile p := by
  induction l₁ with
  | nil => simp
  | cons a t ih =>
      rw [List.dropWhile_cons] at h
      by_cases hp : p a
      · simp only [hp, if_true] at h
        simpa [List.dropWhile_cons, hp] using ih h
      · simp [hp] at h

theorem dropWhile_append_cons {α} {p : α → Bool} {l₁ : List α}
    (h : l₁.dropWhile p ≠ []) (l₂ : List α) :
    (l₁ ++ l₂).dropWhile p = l₁.dropWhile p ++ l₂ := by
  induction l₁ with
  | nil => simp at h
  | cons a t ih =>
      rw [List.dropWhile_cons] at h ⊢
      by_cases hp : p a
      · simp only [hp, if_true] at h ⊢
        simpa [List.dropWhile_cons, hp] using ih h
      · simp [List.dropWhile_cons, hp]

theorem dropWhile_head_false {α} {p : α → Bool} {l : List α} {a : α} {t : List α}
    (h : l.dropWhile p = a :: t) : p a = false := by
  induction l with
  | nil => simp at h
  | cons b u ih =>
      rw [List.dropWhile_cons] at h
      by_cases hp : p b
      · simp only [hp, if_true] at h
        exact ih h
      · simp only [hp, if_false] at h
        cases h
        exact Bool.of_not_eq_true hp

/-! ## Fence-stripping lemmas -/

theorem strip2_append_fence (l : Str) :
    strip2 (l ++ ['\n', '\x60', '\x60', '\x60']) = l := by
  unfold strip2
  have hrev : (l ++ ['\n', '\x60', '\x60', '\x60']).reverse.dropWhile isJsWS
      = '\x60' :: '\x60' :: '\x60' :: '\n' :: l.reverse := by
    rw [List.reverse_append]
    rfl
  rw [hrev]
  simp

theorem strip_wrapFence (raw : Str) :
    stripCodeFence (wrapFence raw) = jsTrim raw := by
  have hstep : stripCodeFence (wrapFence raw)
      = jsTrim (strip2 ((raw ++ ['\n', '\x60', '\x60', '\x60']).dropWhile isJsWS)) := by
    simp [stripCodeFence, wrapFence, strip1, List.dropWhile_cons,
      show isJsWS '\n' = true from rfl]
  rcases h : raw.dropWhile isJsWS with _ | ⟨a, t⟩
  · rw [hstep, dropWhile_append_nil h]
    have h2 : (['\n', '\x60', '\x60', '\x60'] : Str).dropWhile isJsWS
        = ['\x60', '\x60', '\x60'] := by decide
    have h3 : strip2 ['\x60', '\x60', '\x60'] = [] := by decide
    rw [h2, h3]
    simp [jsTrim, h]
  · have hne : raw.dropWhile isJsWS ≠ [] := by rw [h]; simp
    rw [hstep, dropWhile_append_cons hne, h, strip2_append_fence]
    have hpa : isJsWS a = false := dropWhile_head_false h
    simp [jsTrim, h, List.dropWhile_cons, hpa]

theorem strip1_eq_self {s : Str} (h : startsWithFenceOpen s = false) :
    strip1 s = s := by
  unfold strip1
  split
  · simp [startsWithFenceOpen] at h
  · rfl

theorem strip2_eq_self {s : Str} (h : endsWithFenceClose s = false) :
    strip2 s = s := by
  unfold strip2
  split
  · rename_i r heq
    simp only [endsWithFenceClose, heq] at h
    simp at h
  · rfl

theorem stripCodeFence_eq_trim {s : Str} (h1 : startsWithFenceOpen s = false)
    (h2 : endsWithFenceClose s = false) :
    stripCodeFence s = jsTrim s := by
  unfold stripCodeFence
  rw [strip1_eq_self h1, strip2_eq_self h2]

theorem allWS_dropWhile_nil {s : Str} (h : ∀ c ∈ s, isJsWS c = true) :
    s.dropWhile isJsWS = [] :=
  List.dropWhile_eq_nil_iff.mpr h

theorem allWS_stripCodeFence_nil {s : Str} (h : ∀ c ∈ s, isJsWS c = true) :
    stripCodeFence s = [] := by
  have hA : startsWithFenceOpen s = false := by
    unfold startsWithFenceOpen
    split
    · rename_i rest
      have := h '\x60' (by simp)
      simp [isJsWS] at this
    · rfl
  have hrevnil : s.reverse.dropWhile isJsWS = [] :=
    allWS_dropWhile_nil (by intro c hc; exact h c (List.mem_reverse.mp hc))
  have hB : endsWithFenceClose s = false := by
    unfold endsWithFenceClose
    rw [hrevnil]
  rw [stripCodeFence_eq_trim hA hB]
  simp [jsTrim, allWS_dropWhile_nil h]

/-- C5 counterexample: for the raw text that is itself a fenced block
(`"```json\n{}\n```"`), parsing it wrapped in one more fence differs from
parsing it unwrapped — the stripper removes exactly one wrapper, so the
inner fence reaches the structural parser and fails, while the unwrapped
text parses to the empty issue mapping.  The universally quantified claim is
therefore false. -/
theorem parse_fence_wrapped_counterexample :
    parseValeOutput (wrapFence "```json\n\x7b\x7d\n```".data)
        ≠ parseValeOutput "```json\n\x7b\x7d\n```".data
      ∧ parseValeOutput "```json\n\x7b\x7d\n```".data = .ok []
      ∧ parseValeOutput (wrapFence "```json\n\x7b\x7d\n```".data)
          = .error malformedOutputMsg := by
  refine ⟨?_, by decide, by decide⟩
  decide

/-- C5 (amended): for every raw text that is not itself fence-wrapped —
it does not begin with a ```json fence marker and its last non-whitespace
characters are not a ``` fence — parsing the text wrapped in a markdown
code fence yields the same result (hence the same normalized issue list) as
parsing the unwrapped text; exactly one wrapper is stripped, along with
leading/trailing whitespace, before structural parsing. -/
theorem parse_fence_wrapped (raw : Str)
    (h1 : startsWithFenceOpen raw = false)
    (h2 : endsWithFenceClose raw = false) :
    parseValeOutput (wrapFence raw) = parseValeOutput raw := by
  unfold parseValeOutput
  rw [strip_wrapFence, stripCodeFence_eq_trim h1 h2]

theorem parse_fence_wrapped_witness :
    parseValeOutput (wrapFence "\x7b\x7d".data) = parseValeOutput "\x7b\x7d".data :=
  parse_fence_wrapped "\x7b\x7d".data (by decide) (by decide)

/-- C6: parsing empty or whitespace-only raw text — including a code fence
wrapping only whitespace — yields the empty issue mapping, not a parse
error; and on text whose stripped form is non-empty and structurally
invalid, parsing fails with the `MalformedToolOutput` error rather than
returning a result. -/
theorem parse_empty_or_malformed (s raw : Str) :
    ((∀ c ∈ s, isJsWS c = true) → parseValeOutput s = .ok [])
  ∧ ((∀ c ∈ raw, isJsWS c = true) → parseValeOutput (wrapFence raw) = .ok [])
  ∧ (stripCodeFence s ≠ [] → jsonParse (stripCodeFence s) = none →
      parseValeOutput s = .error malformedOutputMsg) := by
  refine ⟨?_, ?_, ?_⟩
  · intro hws
    simp [parseValeOutput, allWS_stripCodeFence_nil hws, parseCleanedOutput]
  · intro hws
    unfold parseValeOutput
    rw [strip_wrapFence]
    simp [jsTrim, allWS_dropWhile_nil hws, parseCleanedOutput]
  · intro hne hjp
    simp [parseValeOutput, parseCleanedOutput, hne, hjp]

theorem parse_empty_or_malformed_witness :
    parseValeOutput "  ".data = .ok []
  ∧ parseValeOutput (wrapFence " ".data) = .ok []
  ∧ parseValeOutput "xyz".data = .error malformedOutputMsg :=
  ⟨(parse_empty_or_malformed "  ".data " ".data).1 (by decide),
   (parse_empty_or_malformed "  ".data " ".data).2.1 (by decide),
   (parse_empty_or_malformed "xyz".data " ".data).2.2 (by decide) (by decide)⟩

/-- C1: in the file-check operation, a non-zero exit of the external tool is
not itself an error — whenever the rejected execution carried any stdout
content, that stdout is taken as the raw output and the check proceeds
exactly as if the process had exited zero with it; and the operation throws
the `ToolExecutionFailed` error carrying the captured stderr/message exactly
when no stdout content was produced. -/
theorem checkFile_stdout_discriminant (absolutePath stdout stderr msg : Str) :
    (stdout ≠ [] →
      checkFileFromExec absolutePath (.failure stdout stderr msg)
        = checkFileFromExec absolutePath (.success stdout))
  ∧ (checkFileExecStdout (.failure stdout stderr msg)
        = .error (valeExecFailedMsg stderr msg) ↔ stdout = []) := by
  constructor
  · intro h
    simp [checkFileFromExec, checkFileExecStdout, h]
  · constructor
    · intro h
      by_contra hne
      simp [checkFileExecStdout, hne] at h
    · intro h
      simp [checkFileExecStdout, h]

theorem checkFile_stdout_discriminant_witness :
    checkFileFromExec "/tmp/doc.md".data (.failure "\x7b\x7d".data "boom".data [])
        = checkFileFromExec "/tmp/doc.md".data (.success "\x7b\x7d".data)
  ∧ checkFileExecStdout (.failure [] "boom".data [])
        = .error (valeExecFailedMsg "boom".data []) :=
  ⟨(checkFile_stdout_discriminant "/tmp/doc.md".data "\x7b\x7d".data "boom".data []).1
      (by decide),
   (checkFile_stdout_discriminant "/tmp/doc.md".data [] "boom".data []).2.mpr rfl⟩

/-! ## Summary lemmas -/

theorem generateSummary_foldl (l : List NormalizedValeIssue) : ∀ acc : ValeSummary,
    l.foldl sevStep acc =
      { total := acc.total,
        errors := acc.errors + l.countP (fun i => i.severity == "error".data),
        warnings := acc.warnings + l.countP (fun i => i.severity == "warning".data),
        suggestions := acc.suggestions + l.countP (fun i => i.severity == "suggestion".data) } := by
  induction l with
  | nil => intro acc; simp
  | cons i t ih =>
      intro acc
      have bew : (("error".data : Str) == "warning".data) = false := by decide
      have bes : (("error".data : Str) == "suggestion".data) = false := by decide
      have bws : (("warning".data : Str) == "suggestion".data) = false := by decide
      have bwe : (("warning".data : Str) == "error".data) = false := by decide
      have bse : (("suggestion".data : Str) == "error".data) = false := by decide
      have bsw : (("suggestion".data : Str) == "warning".data) = false := by decide
      rw [List.foldl_cons, ih]
      by_cases he : i.severity = "error".data
      · simp [sevStep, he, List.countP_cons, bew, bes]
        omega
      · by_cases hw : i.severity = "warning".data
        · simp [sevStep, hw, List.countP_cons, bwe, bws]
          omega
        · by_cases hs : i.severity = "suggestion".data
          · simp [sevStep, hs, List.countP_cons, bse, bsw]
            omega
          · simp [sevStep, List.countP_cons, he, hw, hs]

theorem generateSummary_eq (issues : List NormalizedValeIssue) :
    generateSummary issues =
      { total := issues.length,
        errors := issues.countP (fun i => i.severity == "error".data),
        warnings := issues.countP (fun i => i.severity == "warning".data),
        suggestions := issues.countP (fun i => i.severity == "suggestion".data) } := by
  unfold generateSummary
  rw [generateSummary_foldl]
  simp

theorem length_eq_sevCount_sum {issues : List NormalizedValeIssue}
    (h : ∀ i ∈ issues, i.severity ∈ recognizedSeverities) :
    issues.length
      = issues.countP (fun i => i.severity == "error".data)
        + issues.countP (fun i => i.severity == "warning".data)
        + issues.countP (fun i => i.severity == "suggestion".data) := by
  induction issues with
  | nil => simp
  | cons i t ih =>
      have hi := h i (List.mem_cons_self i t)
      have ht := ih (fun j hj => h j (List.mem_cons_of_mem i hj))
      simp only [recognizedSeverities, List.mem_cons, List.not_mem_nil, or_false] at hi
      simp only [List.countP_cons, List.length_cons]
      rcases hi with hi | hi | hi <;>
        simp [hi] at ht ⊢ <;>
        omega

/-- C2: for any issue list whose severities are all recognized (each one of
`error`, `warning`, `suggestion`), the computed summary satisfies
`total = errors + warnings + suggestions` and `total` equals the length of
the list.  (On an unrecognized severity tag the switch counts no bucket, so
`total` still equals the list length but exceeds the bucket sum.) -/
theorem generateSummary_totals (issues : List NormalizedValeIssue)
    (h : ∀ i ∈ issues, i.severity ∈ recognizedSeverities) :
    (generateSummary issues).total
        = (generateSummary issues).errors + (generateSummary issues).warnings
          + (generateSummary issues).suggestions
  ∧ (generateSummary issues).total = issues.length := by
  rw [generateSummary_eq]
  exact ⟨length_eq_sevCount_sum h, rfl⟩

theorem generateSummary_totals_witness :
    (generateSummary
        [{ line := 3, span := (1, 5), check := "Vale.Spelling".data,
           message := "Typo".data, severity := "error".data, link := none,
           «match» := none },
         { line := 9, span := (2, 4), check := "Vale.Terms".data,
           message := "Term".data, severity := "suggestion".data, link := none,
           «match» := none }]).total = 2 :=
  ((generateSummary_totals _ (by decide)).2).trans (by decide)

/-! ## Normalization lemmas -/

theorem foldl_push {α β} (f : α → β) (l : List α) : ∀ acc : List β,
    l.foldl (fun a i => a ++ [f i]) acc = acc ++ l.map f := by
  induction l with
  | nil => intro acc; simp
  | cons a t ih => intro acc; simp [ih]

theorem normalizeIssues_eq (raw : ValeRawOutput) :
    normalizeIssues raw = ((raw.map (fun p => p.2)).flatten).map normalizeIssue := by
  unfold normalizeIssues
  suffices h : ∀ acc, raw.foldl
      (fun acc p => p.2.foldl (fun acc2 i => acc2 ++ [normalizeIssue i]) acc) acc
        = acc ++ ((raw.map (fun p => p.2)).flatten).map normalizeIssue by
    simpa using h []
  induction raw with
  | nil => intro acc; simp
  | cons p t ih =>
      intro acc
      rw [List.foldl_cons, foldl_push, ih]
      simp [List.append_assoc]

/-- C10: for every raw output mapping — with zero, one, or many file keys —
normalization returns the concatenation of all files' issue lists in
key-enumeration order (the right-hand side depends only on the issue lists,
never on the file keys, so the normalized issues carry no per-file
attribution); consequently the normalized list's length, and the `total` of
the summary computed from it in `checkFile`, equal the sum of the per-file
issue counts. -/
theorem normalizeIssues_concat (raw : ValeRawOutput) :
    normalizeIssues raw = ((raw.map (fun p => p.2)).flatten).map normalizeIssue
  ∧ (normalizeIssues raw).length = (raw.map (fun p => p.2.length)).sum
  ∧ (generateSummary (normalizeIssues raw)).total
      = (raw.map (fun p => p.2.length)).sum := by
  have hlen : (normalizeIssues raw).length = (raw.map (fun p => p.2.length)).sum := by
    rw [normalizeIssues_eq, List.length_map, List.length_flatten, List.map_map]
    rfl
  refine ⟨normalizeIssues_eq raw, hlen, ?_⟩
  rw [generateSummary_eq]
  exact hlen

/-! ## Formatting lemmas -/

theorem group_blocks_eq (issues : List NormalizedValeIssue) (sevLit : Str) :
    (if issues.filter (fun i => i.severity == sevLit) = [] then []
     else ((issues.filter (fun i => i.severity == sevLit)).map (formatIssueBlock sevLit)).flatten)
      = ((issues.filter (fun i => i.severity == sevLit)).map
          (fun i => formatIssueBlock i.severity i)).flatten := by
  by_cases h : issues.filter (fun i => i.severity == sevLit) = []
  · simp [h]
  · rw [if_neg h]
    congr 1
    apply List.map_congr_left
    intro i hi
    have hb := (List.mem_filter.mp hi).2
    have heq : i.severity = sevLit := by simpa using hb
    rw [heq]

/-- C3: for every non-empty issue list, the rendered report is the fixed
header, optional context line, summary line and issues header followed by
exactly the blocks of the issues reordered as all errors, then all warnings,
then all suggestions (each block labelled by its own issue's severity); the
relative order inside each severity group is the original one (filtering the
regrouped sequence by a severity gives the same list as filtering the input);
and the parts of the parenthesized summary clause are exactly the counts
that are non-zero — zero-count severities never appear there. -/
theorem format_groups_by_severity (issues : List NormalizedValeIssue)
    (summary : ValeSummary) (ctx : Option Str) (h : issues ≠ []) :
    formatValeResults issues summary ctx
        = "## Vale Linting Results\n\n".data ++ contextPart ctx ++ summaryLine summary
          ++ "### Issues\n\n".data
          ++ ((orderedBySeverity issues).map (fun i => formatIssueBlock i.severity i)).flatten
  ∧ summaryParts summary
      = (([(summary.errors, "error".data), (summary.warnings, "warning".data),
           (summary.suggestions, "suggestion".data)].filter
            (fun p => 0 < p.1)).map (fun p => countPhrase p.1 p.2))
  ∧ (orderedBySeverity issues).filter (fun i => i.severity == "error".data)
      = issues.filter (fun i => i.severity == "error".data)
  ∧ (orderedBySeverity issues).filter (fun i => i.severity == "warning".data)
      = issues.filter (fun i => i.severity == "warning".data)
  ∧ (orderedBySeverity issues).filter (fun i => i.severity == "suggestion".data)
      = issues.filter (fun i => i.severity == "suggestion".data) := by
  have filter_self : ∀ (sevLit : Str),
      (issues.filter (fun i => i.severity == sevLit)).filter
          (fun i => i.severity == sevLit)
        = issues.filter (fun i => i.severity == sevLit) := by
    intro sevLit
    apply List.filter_eq_self.mpr
    intro a ha
    exact (List.mem_filter.mp ha).2
  have filter_other : ∀ (s1 s2 : Str), (s1 == s2) = false →
      (issues.filter (fun i => i.severity == s1)).filter
          (fun i => i.severity == s2) = [] := by
    intro s1 s2 hne
    apply List.filter_eq_nil_iff.mpr
    intro a ha
    have h1 : a.severity = s1 := by simpa using (List.mem_filter.mp ha).2
    simp [h1]
    intro hcontra
    rw [hcontra] at hne
    simp at hne
  refine ⟨?_, ?_, ?_, ?_, ?_⟩
  · unfold formatValeResults
    rw [if_neg h]
    have hsec : issuesSection issues
        = ((orderedBySeverity issues).map (fun i => formatIssueBlock i.severity i)).flatten := by
      unfold issuesSection severityGroups orderedBySeverity
      simp only [List.map_cons, List.map_nil, List.flatten_cons, List.flatten_nil,
        List.append_nil, List.map_append, List.flatten_append]
      rw [group_blocks_eq issues ("error".data), group_blocks_eq issues ("warning".data),
        group_blocks_eq issues ("suggestion".data)]
      simp [List.append_assoc]
    rw [hsec]
  · unfold summaryParts
    rcases Nat.eq_zero_or_pos summary.errors with he | he <;>
      rcases Nat.eq_zero_or_pos summary.warnings with hw | hw <;>
        rcases Nat.eq_zero_or_pos summary.suggestions with hs | hs <;>
          simp [he, hw, hs]
  · unfold orderedBySeverity
    rw [List.filter_append, List.filter_append, filter_self,
      filter_other "warning".data "error".data (by decide),
      filter_other "suggestion".data "error".data (by decide)]
    simp
  · unfold orderedBySeverity
    rw [List.filter_append, List.filter_append, filter_self,
      filter_other "error".data "warning".data (by decide),
      filter_other "suggestion".data "warning".data (by decide)]
    simp
  · unfold orderedBySeverity
    rw [List.filter_append, List.filter_append, filter_self,
      filter_other "error".data "suggestion".data (by decide),
      filter_other "warning".data "suggestion".data (by decide)]
    simp

theorem format_groups_by_severity_witness :
    formatValeResults
        [{ line := 2, span := (1, 3), check := "Vale.Terms".data,
           message := "Term".data, severity := "warning".data, link := none,
           «match» := none },
         { line := 5, span := (4, 8), check := "Vale.Spelling".data,
           message := "Typo".data, severity := "error".data, link := none,
           «match» := none }]
        { total := 2, errors := 1, warnings := 1, suggestions := 0 } none
      = "## Vale Linting Results\n\n".data ++ contextPart none
        ++ summaryLine { total := 2, errors := 1, warnings := 1, suggestions := 0 }
        ++ "### Issues\n\n".data
        ++ ((orderedBySeverity
              [{ line := 2, span := (1, 3), check := "Vale.Terms".data,
                 message := "Term".data, severity := "warning".data, link := none,
                 «match» := none },
               { line := 5, span := (4, 8), check := "Vale.Spelling".data,
                 message := "Typo".data, severity := "error".data, link := none,
                 «match» := none }]).map (fun i => formatIssueBlock i.severity i)).flatten :=
  (format_groups_by_severity _ _ none (by decide)).1

/-- C4: configuration-file resolution follows the strict priority — with
both an explicit per-call path and a process-wide override present, the
per-call path wins; a process-wide override sourced from the environment is
used only if it resolves to a readable file, otherwise resolution falls
through to a readable `.vale.ini` in the current working directory, and to
none when that is absent as well. -/
theorem config_resolution_priority (env : FsEnv) (p callPath : Str)
    (server : Option Str) :
    (callPath ≠ [] → effectiveConfigPath (some callPath) server = some callPath)
  ∧ (p ≠ [] → verifyConfigFile env (resolveConfigPath env p) = true →
      initializeValeConfig env (some p) = some (resolveConfigPath env p))
  ∧ (verifyConfigFile env (resolveConfigPath env p) = false →
      initializeValeConfig env (some p) = findValeIniInWorkingDir env)
  ∧ (verifyConfigFile env (resolveConfigPath env p) = false →
      env.readable (valeIniPath env) = false →
      initializeValeConfig env (some p) = none) := by
  refine ⟨?_, ?_, ?_, ?_⟩
  · intro h
    simp [effectiveConfigPath, h]
  · intro hp hv
    simp [initializeValeConfig, loadConfig, hp, hv]
  · intro hv
    by_cases hp : p = []
    · simp [initializeValeConfig, loadConfig, hp]
    · simp [initializeValeConfig, loadConfig, hp, hv]
  · intro hv hini
    by_cases hp : p = [] <;>
      simp [initializeValeConfig, loadConfig, findValeIniInWorkingDir, hp, hv, hini]

theorem config_resolution_priority_witness :
    effectiveConfigPath (some "a.ini".data) (some "b.ini".data) = some "a.ini".data
  ∧ initializeValeConfig ⟨"/w".data, fun _ => true⟩ (some "/cfg/v.ini".data)
      = some "/cfg/v.ini".data
  ∧ initializeValeConfig ⟨"/w".data, fun q => q == "/w/.vale.ini".data⟩
        (some "/cfg/v.ini".data)
      = findValeIniInWorkingDir ⟨"/w".data, fun q => q == "/w/.vale.ini".data⟩
  ∧ initializeValeConfig ⟨"/w".data, fun _ => false⟩ (some "/cfg/v.ini".data) = none :=
  ⟨(config_resolution_priority ⟨"/w".data, fun _ => true⟩ [] "a.ini".data
      (some "b.ini".data)).1 (by decide),
   (config_resolution_priority ⟨"/w".data, fun _ => true⟩ "/cfg/v.ini".data [] none).2.1
      (by decide) (by decide),
   (config_resolution_priority ⟨"/w".data, fun q => q == "/w/.vale.ini".data⟩
      "/cfg/v.ini".data [] none).2.2.1 (by decide),
   (config_resolution_priority ⟨"/w".data, fun _ => false⟩ "/cfg/v.ini".data [] none).2.2.2
      (by decide) (by decide)⟩

/-- C7: when `check_file` is invoked with an empty or absent `path`
argument, the dispatcher answers with the parameter-validation error
response, and the external tool is invoked zero times for that request
(neither the installation probe nor the Vale run executes). -/
theorem check_file_empty_path_rejected (pathArg : Option Str)
    (cache : ValeInstallCache) (probeOutcome : ExecOutcome) (fileReadable : Bool)
    (runOutcome : ExecOutcome) (absolutePath : Str)
    (h : pathArg = none ∨ pathArg = some []) :
    dispatchCheckFile pathArg cache probeOutcome fileReadable runOutcome absolutePath
      = (.invalidRequest missingPathMsg, 0) := by
  rcases h with h | h <;> subst h <;> simp [dispatchCheckFile]

theorem check_file_empty_path_rejected_witness :
    dispatchCheckFile (some []) clearValeInstallCache (.success "v3.7.1\n".data) true
        (.success "\x7b\x7d".data) "/f.md".data
      = (.invalidRequest missingPathMsg, 0) :=
  check_file_empty_path_rejected (some []) clearValeInstallCache (.success "v3.7.1\n".data)
    true (.success "\x7b\x7d".data) "/f.md".data (Or.inr rfl)

/-- C8: the `vale_status` response includes the platform-specific
installation guidance exactly when the probe reports the tool not installed
(omitting it — `null` — when installed), and includes the version exactly
when installed (omitting it when not); moreover the first probe from the
cleared cache returns exactly the probe's computed result. -/
theorem vale_status_fields (o : ExecOutcome) (platform : Str) :
    ((valeStatusResponse (valeProbe o) platform).installation_instructions.isSome
        = !(valeStatusResponse (valeProbe o) platform).installed)
  ∧ ((valeStatusResponse (valeProbe o) platform).version.isSome
        = (valeStatusResponse (valeProbe o) platform).installed)
  ∧ (checkValeInstalled clearValeInstallCache o).result = valeProbe o := by
  cases o <;>
    simp [valeStatusResponse, valeProbe, probeCacheOf, cachedResult,
      checkValeInstalled, clearValeInstallCache]

/-! ## Probe-cache lemmas -/

theorem checkValeInstalled_checked {c : ValeInstallCache} (h : c.checked = true)
    (o : ExecOutcome) :
    checkValeInstalled c o = { result := cachedResult c, cache := c, invoked := false } := by
  simp [checkValeInstalled, h]

theorem checkValeInstalled_cache_spec (c : ValeInstallCache) (o : ExecOutcome) :
    (checkValeInstalled c o).cache.checked = true
  ∧ cachedResult (checkValeInstalled c o).cache = (checkValeInstalled c o).result := by
  by_cases h : c.checked = true
  · simp [checkValeInstalled, h]
  · cases o <;> simp [checkValeInstalled, h, probeCacheOf, cachedResult]

/-- C9: after any probe completes, the cache is marked checked, and every
subsequent probe — for any sequence of hypothetical further external
outcomes — returns the same `InstallationStatus` without re-invoking the
external version query and leaves the cache untouched; after an explicit
cache clear, the next probe re-executes the query. -/
theorem probe_cache_stability (c : ValeInstallCache) (o : ExecOutcome)
    (os : List ExecOutcome) :
    (checkValeInstalled c o).cache.checked = true
  ∧ runProbes (checkValeInstalled c o).cache os
      = (os.map (fun _ => ((checkValeInstalled c o).result, false)),
         (checkValeInstalled c o).cache)
  ∧ (checkValeInstalled clearValeInstallCache o).invoked = true := by
  obtain ⟨hch, hres⟩ := checkValeInstalled_cache_spec c o
  refine ⟨hch, ?_, ?_⟩
  · have hgen : ∀ (os : List ExecOutcome) (c' : ValeInstallCache), c'.checked = true →
        runProbes c' os = (os.map (fun _ => (cachedResult c', false)), c') := by
      intro os
      induction os with
      | nil => intro c' h'; simp [runProbes]
      | cons o' t ih =>
          intro c' h'
          simp [runProbes, checkValeInstalled_checked h', ih c' h']
    rw [hgen os _ hch, hres]
  · simp [checkValeInstalled, clearValeInstallCache]
